import Mathlib

/-!
Verification of the core invocation framework of the genai-toolbox
repository (kuzu/kuzudb/bigquery slices): parameter and value model,
auth binding, kind registry, capability binding at tool construction,
the per-credential client cache, and the per-invocation execution
pipeline.  Go code is embedded shallowly: Go maps become association
lists or functions, fallible Go calls become `Except`, and the
concurrent client cache becomes an explicit labelled transition system.
-/

namespace GenaiToolbox

/-- A generic backend value (the shallow embedding of Go `any` /
`interface` values flowing through parameter maps and result rows). -/
inductive Value
  | int (n : Int)
  | str (s : String)
  | bool (b : Bool)
  | list (vs : List Value)
  | null
deriving Repr

/-- One auth binding of a parameter: which auth service and which claim
field provide its value (Go `tools.ParamAuthService`). -/
structure ParamAuthService where
  name : String
  field : String
deriving DecidableEq, Repr

/-- Declared parameter types (spec section 3). -/
inductive ParamType
  | string
  | integer
  | boolean
  | array
deriving DecidableEq, Repr

/-- A declared tool parameter (Go `tools.Parameter`): name, type,
required flag and the list of auth bindings.  `itemType` is the element
type for array parameters. -/
structure Parameter where
  name : String
  type : ParamType
  required : Bool
  itemType : ParamType
  authServices : List ParamAuthService
deriving DecidableEq, Repr

/-- Modelled from the spec: `tools.IsAuthorized` (spec section 4.2), whose
defining source file is not part of this corpus (only its callers in
kuzucypher.go and kuzudb.go are).  A tool with a non-empty
`authRequired` list is authorized only if every named service appears in
the verified set; an empty `authRequired` list is always authorized. -/
def isAuthorized (authRequired verifiedAuthServices : List String) : Bool :=
  authRequired.all (fun s => verifiedAuthServices.contains s)

/-- The kuzu-cypher tool value (Go `kuzucypher.Tool`), built once by
`Config.Initialize` and immutable afterwards.  The backend connection
handle is represented by an abstract identifier; its behaviour is
supplied separately to `invoke` as a `Backend`. -/
structure Tool where
  name : String
  kind : String
  authRequired : List String
  parameters : List Parameter
  templateParameters : List Parameter
  allParams : List Parameter
  connection : Nat
  statement : String
deriving DecidableEq, Repr

/-- Embeds `Tool.Authorized` (kuzucypher.go) and `KuzuDBTool.Authorized`
(kuzudb.go): both delegate to `tools.IsAuthorized` on the tool's
`AuthRequired` list. -/
def Tool.authorized (t : Tool) (verifiedAuthServices : List String) : Bool :=
  isAuthorized t.authRequired verifiedAuthServices

/-! ## Kind registry (spec section 4.4) and the in-tree registration sites -/

/-- A kind registry: a mapping from kind strings to constructors.  The
constructor payload is abstract (`α`). -/
def Registry (α : Type) : Type := List (String × α)

/-- Modelled from the spec: `Register(kind, constructor) → bool` of the
kind registry (spec section 4.4); the registry source file is not part
of this corpus, only its callers (the `init` functions of kuzucypher.go,
tools/kuzudb.go, sources/kuzudb.go, sources/kuzu and bigquery.go) are.
Returns false and leaves the registry unchanged when the kind is already
registered; otherwise records the constructor and returns true. -/
def registerKind (reg : Registry α) (kind : String) (ctor : α) :
    Bool × Registry α :=
  if (reg.lookup kind).isSome then (false, reg) else (true, (kind, ctor) :: reg)

/-- Embeds the shared shape of every in-tree `init` registration site for
tool kinds: `if !tools.Register(kind, newConfig) { panic(...) }`.  The Go
panic is embedded as `.error` carrying the panic message. -/
def registerToolKindOrPanic (reg : Registry α) (kind : String) (ctor : α) :
    Except String (Registry α) :=
  match registerKind reg kind ctor with
  | (true, reg2) => .ok reg2
  | (false, _) => .error ("tool kind \"" ++ kind ++ "\" already registered")

/-- Embeds the shared shape of every in-tree `init` registration site for
source kinds: `if !sources.Register(kind, newConfig) { panic(...) }`. -/
def registerSourceKindOrPanic (reg : Registry α) (kind : String) (ctor : α) :
    Except String (Registry α) :=
  match registerKind reg kind ctor with
  | (true, reg2) => .ok reg2
  | (false, _) => .error ("source kind \"" ++ kind ++ "\" already registered")

/-- Embeds the `init` function of kuzucypher.go (tool kind "kuzu-cypher"). -/
def kuzuCypherInit (reg : Registry α) (ctor : α) : Except String (Registry α) :=
  registerToolKindOrPanic reg "kuzu-cypher" ctor

/-- Embeds the `init` function of tools/kuzudb.go (tool kind "kuzudb-cypher"). -/
def kuzudbToolInit (reg : Registry α) (ctor : α) : Except String (Registry α) :=
  registerToolKindOrPanic reg "kuzudb-cypher" ctor

/-- Embeds the `init` function of sources/kuzudb/kuzudb.go (source kind
"kuzudb"). -/
def kuzudbSourceInit (reg : Registry α) (ctor : α) : Except String (Registry α) :=
  registerSourceKindOrPanic reg "kuzudb" ctor

/-- Embeds the `init` function of the kuzu source file (source kind
"kuzu"). -/
def kuzuSourceInit (reg : Registry α) (ctor : α) : Except String (Registry α) :=
  registerSourceKindOrPanic reg "kuzu" ctor

/-- Embeds the `init` function of bigquery.go (source kind "bigquery"). -/
def bigquerySourceInit (reg : Registry α) (ctor : α) : Except String (Registry α) :=
  registerSourceKindOrPanic reg "bigquery" ctor

/-! ## Kuzu source tuning configuration (C10) -/

/-- The kuzu engine system configuration fields touched by the sources
(the remaining engine defaults are irrelevant and omitted). -/
structure SystemConfig where
  bufferPoolSize : Nat
  maxNumThreads : Nat
  enableCompression : Bool
  readOnly : Bool
  maxDbSize : Nat
deriving DecidableEq, Repr

/-- The kuzudb source configuration (Go `kuzudb.KuzuDbConfig`, identical
tuning fields in the kuzu source `Config`). -/
structure KuzuDbConfig where
  name : String
  kind : String
  database : String
  bufferPoolSize : Nat
  maxNumThreads : Nat
  enableCompression : Bool
  readOnly : Bool
  maxDbSize : Nat
deriving DecidableEq, Repr

/-- Embeds the tuning-application prefix of `initKuzuDbConnection`
(sources/kuzudb/kuzudb.go, lines 81-96): starting from the engine
default system configuration, each tuning field is copied only when it
is non-zero (or true for the booleans), in source order. -/
def applyKuzuDbTuning (defaultConfig : SystemConfig) (config : KuzuDbConfig) :
    SystemConfig :=
  let sc0 := defaultConfig
  let sc1 := if config.bufferPoolSize ≠ 0 then
    { sc0 with bufferPoolSize := config.bufferPoolSize } else sc0
  let sc2 := if config.enableCompression then
    { sc1 with enableCompression := config.enableCompression } else sc1
  let sc3 := if config.maxDbSize ≠ 0 then
    { sc2 with maxDbSize := config.maxDbSize } else sc2
  let sc4 := if config.readOnly then
    { sc3 with readOnly := config.readOnly } else sc3
  let sc5 := if config.maxNumThreads ≠ 0 then
    { sc4 with maxNumThreads := config.maxNumThreads } else sc4
  sc5

/-- Embeds the identical tuning-application prefix of `initKuzuConnection`
(the kuzu source file, lines 95-110). -/
def applyKuzuTuning (defaultConfig : SystemConfig) (config : KuzuDbConfig) :
    SystemConfig :=
  let sc0 := defaultConfig
  let sc1 := if config.bufferPoolSize ≠ 0 then
    { sc0 with bufferPoolSize := config.bufferPoolSize } else sc0
  let sc2 := if config.enableCompression then
    { sc1 with enableCompression := config.enableCompression } else sc1
  let sc3 := if config.maxDbSize ≠ 0 then
    { sc2 with maxDbSize := config.maxDbSize } else sc2
  let sc4 := if config.readOnly then
    { sc3 with readOnly := config.readOnly } else sc3
  let sc5 := if config.maxNumThreads ≠ 0 then
    { sc4 with maxNumThreads := config.maxNumThreads } else sc4
  sc5

/-! ## Credential-scoped client cache, sequential behaviour (C2) -/

/-- A cached BigQuery client entry (Go `bigquery.cachedClient`): the two
client handles (abstract ids) and the expiry timestamp. -/
structure CachedClient where
  client : Nat
  restService : Nat
  expiry : Nat
deriving DecidableEq, Repr

/-- The content of `ClientCache.clients`, keyed by the OAuth access
token string. -/
def ClientCacheMap : Type := List (String × CachedClient)

/-- Go map assignment `c.clients[tokenString] = newCachedClient`:
replaces any existing entry for the key. -/
def cacheInsert (m : ClientCacheMap) (k : String) (v : CachedClient) :
    ClientCacheMap :=
  (k, v) :: m.filter (fun p => p.1 != k)

/-- The fixed client TTL: Go `55 * time.Minute`, measured here in
minutes. -/
def clientTTL : Nat := 55

/-- Embeds the client-construction-and-store tail of `GetOrCreateClient`
(bigquery.go lines 272-286): `mk` is the outcome of
`initBigQueryConnectionWithOAuthToken`; on success the new client pair
is stored with expiry `t3 + clientTTL` (`time.Now().Add(55 * time.Minute)`)
and returned. -/
def createAndStoreClient (clients : ClientCacheMap) (tokenString : String)
    (t3 : Nat) (mk : Except String (Nat × Nat)) :
    Except String ((Nat × Nat) × ClientCacheMap) :=
  match mk with
  | .error e => .error e
  | .ok (client, restService) =>
    .ok ((client, restService),
      cacheInsert clients tokenString
        { client := client, restService := restService,
          expiry := t3 + clientTTL })

/-- Embeds the write-locked slow path of `GetOrCreateClient` (bigquery.go
lines 262-286): double-check at clock `t2`, then construct and store. -/
def getOrCreateClientSlow (clients : ClientCacheMap) (tokenString : String)
    (t2 t3 : Nat) (mk : Except String (Nat × Nat)) :
    Except String ((Nat × Nat) × ClientCacheMap) :=
  match clients.lookup tokenString with
  | some cached =>
    if t2 < cached.expiry then
      .ok ((cached.client, cached.restService), clients)
    else createAndStoreClient clients tokenString t3 mk
  | none => createAndStoreClient clients tokenString t3 mk

/-- Embeds `ClientCache.GetOrCreateClient` (bigquery.go lines 244-287) as
one sequential call: `t1` is the clock at the read-locked fast-path
check, `t2` at the double-check under the write lock, `t3` when the new
expiry is computed.  Returns the chosen client pair and the cache state
after the call. -/
def getOrCreateClient (clients : ClientCacheMap) (tokenString : String)
    (t1 t2 t3 : Nat) (mk : Except String (Nat × Nat)) :
    Except String ((Nat × Nat) × ClientCacheMap) :=
  match clients.lookup tokenString with
  | some cached =>
    if t1 < cached.expiry then
      .ok ((cached.client, cached.restService), clients)
    else getOrCreateClientSlow clients tokenString t2 t3 mk
  | none => getOrCreateClientSlow clients tokenString t2 t3 mk

/-! ## Capability binding at tool construction (C8) -/

/-- A built source instance as seen from tool construction: its kind
string and, when its dynamic type implements the `compatibleSource`
capability interface (`KuzuDB() *kuzu.Connection`), the connection
handle that `KuzuDB()` returns; `none` when the capability is absent. -/
structure SourceInstance where
  kind : String
  kuzuConn : Option Nat
deriving DecidableEq, Repr

/-- Tool-construction errors (Go `fmt.Errorf` values in `Initialize`). -/
inductive InitError
  | unknownSource (name : String)
  | incompatibleSource (toolKind : String) (compatibleKinds : List String)
deriving DecidableEq, Repr

/-- The Go error message of each construction error, as formatted by
`fmt.Errorf` in the two `Initialize` implementations. -/
def InitError.message : InitError → String
  | .unknownSource name => "no source named \"" ++ name ++ "\" configured"
  | .incompatibleSource toolKind compatibleKinds =>
    "invalid source for \"" ++ toolKind ++
      "\" tool: source kind must be one of [" ++
      String.intercalate " " (compatibleKinds.map (fun k => "\"" ++ k ++ "\"")) ++
      "]"

/-- The kuzu-cypher tool configuration (Go `kuzucypher.Config`). -/
structure Config where
  name : String
  kind : String
  source : String
  description : String
  statement : String
  authRequired : List String
  parameters : List Parameter
  templateParameters : List Parameter
deriving DecidableEq, Repr

/-- Modelled from the spec: the parameter-merging part of
`tools.ProcessParameters` (spec section 3: template parameters first,
then regular parameters, merged into one ordered list); its source file
is not part of this corpus.  The manifest projections it also returns
are not modelled, as no claim depends on them. -/
def processParameters (templateParams params : List Parameter) :
    List Parameter :=
  templateParams ++ params

/-- Embeds `Config.Initialize` (kuzucypher.go lines 64-96): look up the
named source among the already-built sources, check the
`compatibleSource` capability interface (a type assertion, not a
kind-string comparison), and build the immutable tool bound to the
connection the capability hands over. -/
def Config.initTool (cfg : Config) (srcs : List (String × SourceInstance)) :
    Except InitError Tool :=
  match srcs.lookup cfg.source with
  | none => .error (.unknownSource cfg.source)
  | some rawS =>
    match rawS.kuzuConn with
    | none => .error (.incompatibleSource "kuzu-cypher" ["kuzu"])
    | some conn =>
      .ok { name := cfg.name, kind := "kuzu-cypher",
            authRequired := cfg.authRequired,
            parameters := cfg.parameters,
            templateParameters := cfg.templateParameters,
            allParams := processParameters cfg.templateParameters cfg.parameters,
            connection := conn, statement := cfg.statement }

/-- The kuzudb-cypher tool configuration (Go `kuzudb.KuzuDBToolConfig`;
it has no template parameters). -/
structure KuzuDBToolConfig where
  name : String
  kind : String
  source : String
  description : String
  statement : String
  authRequired : List String
  parameters : List Parameter
deriving DecidableEq, Repr

/-- Embeds `KuzuDBToolConfig.Initialize` (tools/kuzudb.go lines 49-79):
the same lookup and capability check for the "kuzudb-cypher" tool kind,
whose compatible source kind list is `["kuzudb"]`.  The Go `KuzuDBTool`
has no template-parameter fields; it is embedded into `Tool` with an
empty template list and `allParams = parameters` (its `ParseParams`
uses `k.Parameters`). -/
def KuzuDBToolConfig.initTool (cfg : KuzuDBToolConfig)
    (srcs : List (String × SourceInstance)) : Except InitError Tool :=
  match srcs.lookup cfg.source with
  | none => .error (.unknownSource cfg.source)
  | some rawS =>
    match rawS.kuzuConn with
    | none => .error (.incompatibleSource "kuzudb-cypher" ["kuzudb"])
    | some conn =>
      .ok { name := cfg.name, kind := "kuzudb-cypher",
            authRequired := cfg.authRequired,
            parameters := cfg.parameters,
            templateParameters := [],
            allParams := cfg.parameters,
            connection := conn, statement := cfg.statement }

/-! ## Parameter validation and auth-claim binding (C4) -/

/-- The verified-claims input: for each verified auth service, its
claim-field → value mapping (Go `map[string]map[string]any`; the
per-service mapping is embedded as a total function on claim fields). -/
def ClaimsMap : Type := List (String × (String → Value))

/-- Raw caller input: a flat name → JSON value object. -/
def RawInput : Type := String → Option Value

/-- The ordered (name, resolved value) sequence produced by validation
(Go `tools.ParamValues`). -/
def ParamValues : Type := List (String × Value)

/-- Per-invocation parameter validation errors (spec section 7). -/
inductive ParamError
  | missingParameter (name : String)
  | typeMismatch (name : String)
  | authParameterUnresolved (name : String)
deriving DecidableEq, Repr

/-- Whether a value is coercible to a declared scalar type. -/
def typeMatches : ParamType → Value → Bool
  | .string, .str _ => true
  | .integer, .int _ => true
  | .boolean, .bool _ => true
  | .array, .list _ => true
  | _, _ => false

/-- Whether a value matches a parameter's declared type; array items are
each validated against the item type. -/
def valueMatches (p : Parameter) (v : Value) : Bool :=
  match p.type, v with
  | .array, .list vs => vs.all (fun w => typeMatches p.itemType w)
  | t, w => typeMatches t w

/-- The first declared auth binding of a parameter whose auth service
appears among the verified claims, together with that service's claim
mapping. -/
def firstVerifiedBinding (bindings : List ParamAuthService)
    (claims : ClaimsMap) : Option (ParamAuthService × (String → Value)) :=
  match bindings with
  | [] => none
  | b :: rest =>
    match claims.lookup b.name with
    | some m => some (b, m)
    | none => firstVerifiedBinding rest claims

/-- Modelled from the spec: resolution of one declared parameter inside
`tools.ParseParams` (spec section 4.1), whose defining source file is
not part of this corpus (only its callers in kuzucypher.go and
kuzudb.go are).  A parameter without auth bindings is read from raw
input (MissingParameter if required and absent, TypeMismatch if not
coercible, skipped if optional and absent); a parameter with auth
bindings takes the claim value of the first binding whose service was
verified and never reads raw input, failing with
AuthParameterUnresolved when none of its bound services were verified. -/
def resolveParam (p : Parameter) (raw : RawInput) (claims : ClaimsMap) :
    Except ParamError (Option Value) :=
  match p.authServices with
  | [] =>
    match raw p.name with
    | some v =>
      if valueMatches p v then .ok (some v) else .error (.typeMismatch p.name)
    | none =>
      if p.required then .error (.missingParameter p.name) else .ok none
  | _ :: _ =>
    match firstVerifiedBinding p.authServices claims with
    | some (b, m) => .ok (some (m b.field))
    | none => .error (.authParameterUnresolved p.name)

/-- Modelled from the spec: `tools.ParseParams` /
`Validate(rawInput, verifiedClaims)` (spec section 4.1): resolves the
declared parameters in order into an ordered (name, value) sequence,
aborting with the first parameter error. -/
def parseParams (params : List Parameter) (raw : RawInput)
    (claims : ClaimsMap) : Except ParamError ParamValues :=
  match params with
  | [] => .ok []
  | p :: rest =>
    match resolveParam p raw claims with
    | .error e => .error e
    | .ok none => parseParams rest raw claims
    | .ok (some v) =>
      match parseParams rest raw claims with
      | .error e => .error e
      | .ok vs => .ok ((p.name, v) :: vs)

/-- Embeds `Tool.ParseParams` (kuzucypher.go lines 183-186): delegates to
`tools.ParseParams` on the tool's merged `AllParams` list. -/
def toolParseParams (t : Tool) (raw : RawInput) (claims : ClaimsMap) :
    Except ParamError ParamValues :=
  parseParams t.allParams raw claims

/-! ## The per-invocation execution pipeline (C3, C6, C7) -/

/-- Observable events of one `Invoke`, recorded in execution order:
template resolution, statement preparation, statement-parameter
extraction (binding), execution, and one event per iterated row. -/
inductive Ev
  | resolveTemplate
  | prepare
  | getParams
  | execute
  | row (i : Nat)
deriving DecidableEq, Repr

/-- Linear pipeline position of each stage event (row `i` is stage
`4 + i`). -/
def stagePos : Ev → Nat
  | .resolveTemplate => 0
  | .prepare => 1
  | .getParams => 2
  | .execute => 3
  | .row i => 4 + i

/-- A prepared statement handle, identified by the statement text it was
prepared from (Go `*kuzu.PreparedStatement` is opaque to the tool). -/
def PreparedStmt : Type := String

/-- One backend result set: the column names (`GetColumnNames`) and the
per-row outcomes of the `Next`/`GetAsSlice` iteration (each row either
yields the tuple as a value slice or fails). -/
structure ResultSet where
  cols : List String
  rows : List (Except String (List Value))

/-- The behaviour of a kuzu connection handle: the `Prepare` and
`Execute` capability calls `Invoke` makes. -/
structure Backend where
  prepare : String → Except String PreparedStmt
  execute : PreparedStmt → (String → Option Value) → Except String ResultSet

/-- The type of `tools.ResolveTemplateParams`, passed to `invoke`
abstractly: its defining source file is not part of this corpus and the
pipeline claims depend only on when `Invoke` calls it, not on its
internals. -/
def Resolver : Type :=
  List Parameter → String → (String → Option Value) → Except String String

/-- Go `ParamValues.AsMap`: the name → value map built from the ordered
pairs (later duplicates overwrite earlier ones, as in a Go map). -/
def asMap (params : ParamValues) : String → Option Value :=
  params.foldl (fun m p => Function.update m p.1 (some p.2)) (fun _ => none)

/-- Embeds `getParams` (kuzucypher.go lines 190-201): builds the map of
statement parameters from the declared parameter list, failing with
"missing parameter" on the first declared name absent from the value
map. -/
def getParams (params : List Parameter)
    (paramValuesMap : String → Option Value) :
    Except String (String → Option Value) :=
  match params with
  | [] => .ok (fun _ => none)
  | p :: rest =>
    match paramValuesMap p.name with
    | none => .error ("missing parameter " ++ p.name)
    | some v =>
      match getParams rest paramValuesMap with
      | .error e => .error e
      | .ok m => .ok (Function.update m p.name (some v))

/-- The name → value view of one projected result row.  The Go code
builds a `map[string]interface` per row; a Go map holds no order, so the
row is embedded extensionally as a function. -/
def RowMap : Type := String → Option Value

/-- Embeds the per-row projection loop shared by `Tool.Invoke`
(kuzucypher.go lines 161-166) and `KuzuDBTool.Invoke` (kuzudb.go lines
135-140): a fresh map receives `rowMap[col] = slice[i]` for every column
index `i`. -/
def buildRowMap (cols : List String) (slice : List Value) : RowMap :=
  (cols.zip slice).foldl (fun m p => Function.update m p.1 (some p.2))
    (fun _ => none)

/-- Embeds the row-iteration loop of `Invoke` (`for result.HasNext()`):
`i` is the index of the next row; returns the projected rows (or the
first row error) together with one `row` event per attempted row. -/
def iterRows (cols : List String) (rows : List (Except String (List Value)))
    (i : Nat) : Except String (List RowMap) × List Ev :=
  match rows with
  | [] => (.ok [], [])
  | r :: rest =>
    match r with
    | .error e => (.error ("unable to parse row: " ++ e), [Ev.row i])
    | .ok slice =>
      let tail := iterRows cols rest (i + 1)
      (match tail.1 with
       | .error e => .error e
       | .ok out => .ok (buildRowMap cols slice :: out),
       Ev.row i :: tail.2)

/-- Embeds `Tool.Invoke` (kuzucypher.go lines 125-171), recording the
event trace of the pipeline in execution order: resolve template
parameters into the final statement text, ask the connection for a
prepared form, extract the statement parameters, execute, then iterate
the result rows. -/
def invoke (t : Tool) (resolver : Resolver) (conn : Backend)
    (params : ParamValues) : Except String (List RowMap) × List Ev :=
  let paramsMap := asMap params
  match resolver t.templateParameters t.statement paramsMap with
  | .error e =>
    (.error ("unable to extract template params " ++ e), [Ev.resolveTemplate])
  | .ok newStatement =>
    match conn.prepare newStatement with
    | .error e =>
      (.error ("unable to generate prepared statement " ++ e),
       [Ev.resolveTemplate, Ev.prepare])
    | .ok preparedStatement =>
      match getParams t.parameters paramsMap with
      | .error e =>
        (.error ("unable to extract standard params " ++ e),
         [Ev.resolveTemplate, Ev.prepare, Ev.getParams])
      | .ok newParamMap =>
        match conn.execute preparedStatement newParamMap with
        | .error e =>
          (.error ("unable to execute query: " ++ e),
           [Ev.resolveTemplate, Ev.prepare, Ev.getParams, Ev.execute])
        | .ok result =>
          let rowsOut := iterRows result.cols result.rows 0
          (rowsOut.1,
           [Ev.resolveTemplate, Ev.prepare, Ev.getParams, Ev.execute] ++
             rowsOut.2)

/-- A resolver performing no substitution, for concrete evaluations of
tools without template parameters. -/
def idResolver : Resolver := fun _ stmt _ => .ok stmt

/-- A backend whose preparation echoes the statement and whose execution
always reports the given result set, for concrete evaluations. -/
def constBackend (cols : List String) (rows : List (List Value)) : Backend :=
  { prepare := fun s => .ok s,
    execute := fun _ _ => .ok { cols := cols, rows := rows.map .ok } }

/-- A minimal concrete tool with no parameters, for concrete
evaluations of `invoke`. -/
def exampleTool : Tool :=
  { name := "t", kind := "kuzu-cypher", authRequired := [],
    parameters := [], templateParameters := [], allParams := [],
    connection := 0, statement := "MATCH (a) RETURN a" }

/-- The index of the first occurrence of an event in a trace. -/
def evIndex (tr : List Ev) (e : Ev) : Nat :=
  tr.findIdx (fun x => x == e)

/-! ## Client cache under concurrent first access (C1)

`GetOrCreateClient` for one fixed credential is modelled as a labelled
transition system over the goroutines executing it, with the
reader/writer lock `ClientCache.mu` explicit.  Per the claim's premise
the run happens while the credential is within its validity window, so
the clock is one fixed `now` and every stored expiry is
`now + clientTTL > now`; the background `cleanupLoop` sweep is included
and only ever removes an entry whose expiry has passed.  Client
construction is modelled as succeeding, matching the claim scenario in
which a client is actually constructed and shared. -/

/-- A cache entry in the concurrency model: the identity of the
constructed client and its expiry. -/
structure CEntry where
  clientId : Nat
  expiry : Nat
deriving DecidableEq, Repr

/-- The program counter of one goroutine inside `GetOrCreateClient`:
about to take the read lock; holding it, about to run the fast-path
check; released it after a miss, waiting for the write lock; holding
the write lock, about to double-check; constructed client `id`, about
to store it and unlock; returned client `id`. -/
inductive PC
  | start
  | reading
  | needWrite
  | writing
  | storing (id : Nat)
  | done (id : Nat)
deriving DecidableEq, Repr

/-- Whether a goroutine currently holds the write lock. -/
def isWriterPC : PC → Prop
  | .writing => True
  | .storing _ => True
  | _ => False

/-- Global state of the concurrent cache for the fixed credential: the
cache entry, the reader count and writer flag of `mu`, the id counter
for constructed clients, how many clients have been constructed, and
every goroutine's program counter. -/
structure CacheState where
  cache : Option CEntry
  readers : Nat
  writer : Bool
  nextId : Nat
  constructed : Nat
  threads : List PC
deriving DecidableEq, Repr

/-- One transition of the concurrent `GetOrCreateClient` model at the
frozen clock `now`: read-lock acquisition, the read-locked fast-path
check (hit returns, miss releases and requests the write lock),
write-lock acquisition, the double-check under the write lock (hit
returns, miss constructs a fresh client), the store-and-unlock, and the
background sweep removing an expired entry under the write lock. -/
inductive CacheStep (now : Nat) : CacheState → CacheState → Prop
  | rlock (s : CacheState) (i : Nat)
      (h : s.threads[i]? = some .start) (hw : s.writer = false) :
      CacheStep now s { s with
        readers := s.readers + 1,
        threads := s.threads.set i .reading }
  | readHit (s : CacheState) (i : Nat) (e : CEntry)
      (h : s.threads[i]? = some .reading)
      (hc : s.cache = some e) (ht : now < e.expiry) :
      CacheStep now s { s with
        readers := s.readers - 1,
        threads := s.threads.set i (.done e.clientId) }
  | readMiss (s : CacheState) (i : Nat)
      (h : s.threads[i]? = some .reading)
      (hm : s.cache = none ∨ ∃ e, s.cache = some e ∧ e.expiry ≤ now) :
      CacheStep now s { s with
        readers := s.readers - 1,
        threads := s.threads.set i .needWrite }
  | wlock (s : CacheState) (i : Nat)
      (h : s.threads[i]? = some .needWrite)
      (hw : s.writer = false) (hr : s.readers = 0) :
      CacheStep now s { s with
        writer := true,
        threads := s.threads.set i .writing }
  | writeHit (s : CacheState) (i : Nat) (e : CEntry)
      (h : s.threads[i]? = some .writing)
      (hc : s.cache = some e) (ht : now < e.expiry) :
      CacheStep now s { s with
        writer := false,
        threads := s.threads.set i (.done e.clientId) }
  | writeMiss (s : CacheState) (i : Nat)
      (h : s.threads[i]? = some .writing)
      (hm : s.cache = none ∨ ∃ e, s.cache = some e ∧ e.expiry ≤ now) :
      CacheStep now s { s with
        nextId := s.nextId + 1,
        constructed := s.constructed + 1,
        threads := s.threads.set i (.storing s.nextId) }
  | store (s : CacheState) (i : Nat) (id : Nat)
      (h : s.threads[i]? = some (.storing id)) :
      CacheStep now s { s with
        cache := some { clientId := id, expiry := now + clientTTL },
        writer := false, threads := s.threads.set i (.done id) }
  | sweep (s : CacheState) (e : CEntry)
      (hw : s.writer = false) (hr : s.readers = 0)
      (hc : s.cache = some e) (ht : e.expiry ≤ now) :
      CacheStep now s { s with cache := none }

/-- Reachability in the concurrent cache model. -/
def CacheReachable (now : Nat) : CacheState → CacheState → Prop :=
  Relation.ReflTransGen (CacheStep now)

/-- The initial state of the claim's scenario: no entry exists yet and
`n` goroutines are about to call `GetOrCreateClient` with the same
credential. -/
def initCacheState (n : Nat) : CacheState :=
  { cache := none, readers := 0, writer := false, nextId := 0,
    constructed := 0, threads := List.replicate n .start }

/-- The inductive invariant of the concurrent cache model. -/
structure CacheInv (now : Nat) (n : Nat) (s : CacheState) : Prop where
  hlen : s.threads.length = n
  hle : s.constructed ≤ 1
  hcache : ∀ e, s.cache = some e →
    e.expiry = now + clientTTL ∧ s.constructed = 1
  hstoring : ∀ (i id : Nat), s.threads[i]? = some (PC.storing id) →
    s.cache = none ∧ s.constructed = 1 ∧ s.writer = true
  hwriting : ∀ (i : Nat), s.threads[i]? = some PC.writing → s.writer = true
  hmutex : ∀ (i j : Nat) (pci pcj : PC), s.threads[i]? = some pci →
    s.threads[j]? = some pcj → isWriterPC pci → isWriterPC pcj → i = j
  hwfalse : s.writer = false →
    ∀ (i : Nat) (pc : PC), s.threads[i]? = some pc → ¬ isWriterPC pc
  hdone : ∀ (i id : Nat), s.threads[i]? = some (PC.done id) →
    ∃ e, s.cache = some e ∧ e.clientId = id
  hsrc : s.constructed = 1 →
    s.cache.isSome ∨ ∃ (i id : Nat), s.threads[i]? = some (PC.storing id)

/-! ## Theorems -/

/-- C5: for every tool and every set of verified auth service names, an
empty `authRequired` list makes `Authorized` return true, and a
non-empty `authRequired` list makes `Authorized` return true exactly
when every named service appears in the verified set. -/
theorem authorized_empty_or_all_verified (t : Tool) (vs : List String) :
    (t.authRequired = [] → t.authorized vs = true) ∧
    (t.authRequired ≠ [] →
      (t.authorized vs = true ↔ ∀ s ∈ t.authRequired, s ∈ vs)) := by
  constructor
  · intro h
    simp [Tool.authorized, isAuthorized, h]
  · intro _
    simp [Tool.authorized, isAuthorized, List.all_eq_true]

/-- Witness for C5 at a concrete tool: with `authRequired = ["svcA"]`,
the tool is authorized for `["svcA", "svcB"]` and not for `["svcB"]`. -/
theorem authorized_empty_or_all_verified_witness :
    (({ name := "t", kind := "kuzu-cypher", authRequired := ["svcA"],
        parameters := [], templateParameters := [], allParams := [],
        connection := 0, statement := "RETURN 1" } : Tool).authorized
        ["svcA", "svcB"] = true) ∧
    (({ name := "t", kind := "kuzu-cypher", authRequired := ["svcA"],
        parameters := [], templateParameters := [], allParams := [],
        connection := 0, statement := "RETURN 1" } : Tool).authorized
        ["svcB"] = false) := by
  constructor
  · exact ((authorized_empty_or_all_verified _ ["svcA", "svcB"]).2
      (by decide)).mpr (by decide)
  · have h := (authorized_empty_or_all_verified
      { name := "t", kind := "kuzu-cypher", authRequired := ["svcA"],
        parameters := [], templateParameters := [], allParams := [],
        connection := 0, statement := "RETURN 1" } ["svcB"]).2 (by decide)
    simp only [Tool.authorized] at h ⊢
    by_contra hc
    simp at hc
    have := h.mp hc
    simp at this

/-- C9: registering a second factory under an already-registered kind
returns false and leaves the registry (hence the first registration)
intact; registering a not-yet-registered kind returns true; and every
in-tree registration site fails fast (its `init` aborts with the panic
message) when its kind is already registered. -/
theorem register_duplicate_fails_fast {α : Type} (reg : Registry α)
    (kind : String) (ctor : α) :
    ((reg.lookup kind).isSome →
      (registerKind reg kind ctor).1 = false ∧
      (registerKind reg kind ctor).2 = reg) ∧
    ((reg.lookup kind) = none → (registerKind reg kind ctor).1 = true) ∧
    ((reg.lookup "kuzu-cypher").isSome →
      kuzuCypherInit reg ctor =
        .error "tool kind \"kuzu-cypher\" already registered") ∧
    ((reg.lookup "kuzudb-cypher").isSome →
      kuzudbToolInit reg ctor =
        .error "tool kind \"kuzudb-cypher\" already registered") ∧
    ((reg.lookup "kuzudb").isSome →
      kuzudbSourceInit reg ctor =
        .error "source kind \"kuzudb\" already registered") ∧
    ((reg.lookup "kuzu").isSome →
      kuzuSourceInit reg ctor =
        .error "source kind \"kuzu\" already registered") ∧
    ((reg.lookup "bigquery").isSome →
      bigquerySourceInit reg ctor =
        .error "source kind \"bigquery\" already registered") := by
  refine ⟨fun h => ?_, fun h => ?_, fun h => ?_, fun h => ?_, fun h => ?_,
    fun h => ?_, fun h => ?_⟩ <;>
    simp [registerKind, kuzuCypherInit, kuzudbToolInit, kuzudbSourceInit,
      kuzuSourceInit, bigquerySourceInit, registerToolKindOrPanic,
      registerSourceKindOrPanic, h]

/-- Witness for C9 at a concrete registry holding the five in-tree kinds
with constructor payload 0: re-registering "kuzu-cypher" returns false
and leaves the registry intact, the five init sites all fail fast, and
registering a fresh kind on the empty registry returns true. -/
theorem register_duplicate_fails_fast_witness :
    (registerKind [("kuzu-cypher", 0), ("kuzudb-cypher", 0), ("kuzudb", 0),
        ("kuzu", 0), ("bigquery", 0)] "kuzu-cypher" 1).1 = false ∧
    (registerKind [("kuzu-cypher", 0), ("kuzudb-cypher", 0), ("kuzudb", 0),
        ("kuzu", 0), ("bigquery", 0)] "kuzu-cypher" 1).2 =
      [("kuzu-cypher", 0), ("kuzudb-cypher", 0), ("kuzudb", 0),
        ("kuzu", 0), ("bigquery", 0)] ∧
    kuzuCypherInit [("kuzu-cypher", 0), ("kuzudb-cypher", 0), ("kuzudb", 0),
        ("kuzu", 0), ("bigquery", 0)] 1 =
      .error "tool kind \"kuzu-cypher\" already registered" ∧
    (registerKind ([] : Registry Nat) "kuzu-cypher" 1).1 = true := by
  have h := register_duplicate_fails_fast
    [("kuzu-cypher", 0), ("kuzudb-cypher", 0), ("kuzudb", 0),
      ("kuzu", 0), ("bigquery", 0)] "kuzu-cypher" (1 : Nat)
  have h0 := register_duplicate_fails_fast ([] : Registry Nat) "kuzu-cypher" 1
  exact ⟨(h.1 (by decide)).1, (h.1 (by decide)).2, h.2.2.1 (by decide),
    h0.2.1 (by decide)⟩

/-- Field-wise description of `applyKuzuDbTuning`. -/
theorem applyKuzuDbTuning_eq (d : SystemConfig) (c : KuzuDbConfig) :
    applyKuzuDbTuning d c =
      { bufferPoolSize :=
          if c.bufferPoolSize ≠ 0 then c.bufferPoolSize else d.bufferPoolSize,
        maxNumThreads :=
          if c.maxNumThreads ≠ 0 then c.maxNumThreads else d.maxNumThreads,
        enableCompression :=
          if c.enableCompression then c.enableCompression else d.enableCompression,
        readOnly := if c.readOnly then c.readOnly else d.readOnly,
        maxDbSize := if c.maxDbSize ≠ 0 then c.maxDbSize else d.maxDbSize } := by
  unfold applyKuzuDbTuning
  split <;> split <;> split <;> split <;> split <;> rfl

/-- Field-wise description of `applyKuzuTuning`. -/
theorem applyKuzuTuning_eq (d : SystemConfig) (c : KuzuDbConfig) :
    applyKuzuTuning d c =
      { bufferPoolSize :=
          if c.bufferPoolSize ≠ 0 then c.bufferPoolSize else d.bufferPoolSize,
        maxNumThreads :=
          if c.maxNumThreads ≠ 0 then c.maxNumThreads else d.maxNumThreads,
        enableCompression :=
          if c.enableCompression then c.enableCompression else d.enableCompression,
        readOnly := if c.readOnly then c.readOnly else d.readOnly,
        maxDbSize := if c.maxDbSize ≠ 0 then c.maxDbSize else d.maxDbSize } := by
  unfold applyKuzuTuning
  split <;> split <;> split <;> split <;> split <;> rfl

/-- C10: every zero-valued tuning field of the kuzudb (and kuzu) source
configuration leaves the corresponding engine default unchanged, and
`enableCompression = false` or `readOnly = false` can never switch the
corresponding default off, in both `initKuzuDbConnection` and
`initKuzuConnection`. -/
theorem zero_tuning_leaves_engine_defaults (d : SystemConfig)
    (c : KuzuDbConfig) :
    (c.bufferPoolSize = 0 →
      (applyKuzuDbTuning d c).bufferPoolSize = d.bufferPoolSize ∧
      (applyKuzuTuning d c).bufferPoolSize = d.bufferPoolSize) ∧
    (c.maxNumThreads = 0 →
      (applyKuzuDbTuning d c).maxNumThreads = d.maxNumThreads ∧
      (applyKuzuTuning d c).maxNumThreads = d.maxNumThreads) ∧
    (c.maxDbSize = 0 →
      (applyKuzuDbTuning d c).maxDbSize = d.maxDbSize ∧
      (applyKuzuTuning d c).maxDbSize = d.maxDbSize) ∧
    (c.enableCompression = false →
      (applyKuzuDbTuning d c).enableCompression = d.enableCompression ∧
      (applyKuzuTuning d c).enableCompression = d.enableCompression) ∧
    (c.readOnly = false →
      (applyKuzuDbTuning d c).readOnly = d.readOnly ∧
      (applyKuzuTuning d c).readOnly = d.readOnly) := by
  refine ⟨fun h => ⟨?_, ?_⟩, fun h => ⟨?_, ?_⟩, fun h => ⟨?_, ?_⟩,
    fun h => ⟨?_, ?_⟩, fun h => ⟨?_, ?_⟩⟩ <;>
    simp [applyKuzuDbTuning_eq, applyKuzuTuning_eq, h]

/-- Witness for C10 at the all-zero configuration against a concrete
default: every tuned field equals the default. -/
theorem zero_tuning_leaves_engine_defaults_witness :
    (applyKuzuDbTuning
        { bufferPoolSize := 777, maxNumThreads := 8,
          enableCompression := true, readOnly := false, maxDbSize := 999 }
        { name := "s", kind := "kuzudb", database := "", bufferPoolSize := 0,
          maxNumThreads := 0, enableCompression := false, readOnly := false,
          maxDbSize := 0 }).bufferPoolSize = 777 ∧
    (applyKuzuTuning
        { bufferPoolSize := 777, maxNumThreads := 8,
          enableCompression := true, readOnly := false, maxDbSize := 999 }
        { name := "s", kind := "kuzudb", database := "", bufferPoolSize := 0,
          maxNumThreads := 0, enableCompression := false, readOnly := false,
          maxDbSize := 0 }).enableCompression = true := by
  have h := zero_tuning_leaves_engine_defaults
    { bufferPoolSize := 777, maxNumThreads := 8, enableCompression := true,
      readOnly := false, maxDbSize := 999 }
    { name := "s", kind := "kuzudb", database := "", bufferPoolSize := 0,
      maxNumThreads := 0, enableCompression := false, readOnly := false,
      maxDbSize := 0 }
  exact ⟨(h.1 rfl).1, (h.2.2.2.1 rfl).2⟩

/-- C2: with the clock non-decreasing across the call, a successful
`GetOrCreateClient` either returns a cached entry that is strictly
before its expiry (leaving the cache unchanged), or — exactly when no
unexpired entry exists for the credential — returns the freshly
constructed client and stores it with the fixed future expiry
`t3 + clientTTL`.  A cached entry whose expiry has passed is never
returned. -/
theorem getOrCreateClient_never_returns_expired
    (clients : ClientCacheMap) (tokenString : String) (t1 t2 t3 : Nat)
    (mk : Except String (Nat × Nat)) (res : Nat × Nat)
    (cache2 : ClientCacheMap) (h12 : t1 ≤ t2)
    (hres : getOrCreateClient clients tokenString t1 t2 t3 mk =
      .ok (res, cache2)) :
    (∃ cached, clients.lookup tokenString = some cached ∧
      t1 < cached.expiry ∧ res = (cached.client, cached.restService) ∧
      cache2 = clients) ∨
    (mk = .ok res ∧
      cache2 = cacheInsert clients tokenString
        { client := res.1, restService := res.2, expiry := t3 + clientTTL } ∧
      (∀ cached, clients.lookup tokenString = some cached →
        cached.expiry ≤ t1)) := by
  unfold getOrCreateClient at hres
  split at hres
  next cached hlook =>
    split at hres
    next h1 =>
      simp only [Except.ok.injEq, Prod.mk.injEq] at hres
      left
      exact ⟨cached, hlook, h1, hres.1.symm, hres.2.symm⟩
    next h1 =>
      unfold getOrCreateClientSlow at hres
      split at hres
      next cached2 hlook2 =>
        rw [hlook] at hlook2
        injection hlook2 with he
        subst he
        split at hres
        next h2 => exact absurd h2 (by omega)
        next h2 =>
          unfold createAndStoreClient at hres
          cases hmk : mk with
          | error e => rw [hmk] at hres; simp at hres
          | ok pair =>
            obtain ⟨client, restService⟩ := pair
            rw [hmk] at hres
            simp only [Except.ok.injEq, Prod.mk.injEq] at hres
            obtain ⟨hr, hc⟩ := hres
            subst hr
            subst hc
            right
            refine ⟨rfl, rfl, fun c hcl => ?_⟩
            rw [hlook] at hcl
            injection hcl with he
            subst he
            omega
      next hlook2 =>
        rw [hlook] at hlook2
        cases hlook2
  next hlook =>
    unfold getOrCreateClientSlow at hres
    split at hres
    next cached2 hlook2 =>
      rw [hlook] at hlook2
      cases hlook2
    next hlook2 =>
      unfold createAndStoreClient at hres
      cases hmk : mk with
      | error e => rw [hmk] at hres; simp at hres
      | ok pair =>
        obtain ⟨client, restService⟩ := pair
        rw [hmk] at hres
        simp only [Except.ok.injEq, Prod.mk.injEq] at hres
        obtain ⟨hr, hc⟩ := hres
        subst hr
        subst hc
        right
        refine ⟨rfl, rfl, fun c hcl => ?_⟩
        rw [hlook] at hcl
        cases hcl

/-- Witness for C2 at a concrete call: the cached entry for "tok"
expired at time 10, the call happens at time 20 and construction yields
clients `(7, 8)`; the theorem instantiates to this dichotomy (here its
fresh-client branch holds and the expired entry `(1, 2)` is not
returned). -/
theorem getOrCreateClient_never_returns_expired_witness :
    (∃ cached,
      (([("tok", { client := 1, restService := 2, expiry := 10 })] :
        ClientCacheMap).lookup "tok") = some cached ∧
      20 < cached.expiry ∧
      ((7, 8) : Nat × Nat) = (cached.client, cached.restService) ∧
      cacheInsert [("tok", { client := 1, restService := 2, expiry := 10 })] "tok" { client := 7, restService := 8, expiry := 20 + clientTTL } =
        [("tok", { client := 1, restService := 2, expiry := 10 })]) ∨
    ((Except.ok (7, 8) : Except String (Nat × Nat)) = Except.ok (7, 8) ∧
      cacheInsert [("tok", { client := 1, restService := 2, expiry := 10 })] "tok" { client := 7, restService := 8, expiry := 20 + clientTTL } =
        cacheInsert [("tok", { client := 1, restService := 2, expiry := 10 })] "tok" { client := 7, restService := 8, expiry := 20 + clientTTL } ∧
      (∀ cached,
        (([("tok", { client := 1, restService := 2, expiry := 10 })] :
          ClientCacheMap).lookup "tok") = some cached → cached.expiry ≤ 20)) :=
  getOrCreateClient_never_returns_expired
    [("tok", { client := 1, restService := 2, expiry := 10 })] "tok" 20 20 20
    (Except.ok (7, 8)) (7, 8)
    (cacheInsert [("tok", { client := 1, restService := 2, expiry := 10 })] "tok" { client := 7, restService := 8, expiry := 20 + clientTTL })
    (by decide) (by rfl)

/-- C8: tool construction fails with the unknown-source error when the
named source is absent; when the source exists but lacks the capability
interface it fails with the incompatible-source error (whose message
names the tool kind and the source kinds providing the required
capability); and when the source exposes the capability, binding
succeeds and hands the tool the capability connection, regardless of
the source's kind string.  Both tool kinds behave alike. -/
theorem initTool_capability_check (cfg : Config) (kcfg : KuzuDBToolConfig)
    (srcs : List (String × SourceInstance)) :
    (srcs.lookup cfg.source = none →
      cfg.initTool srcs = .error (.unknownSource cfg.source)) ∧
    (∀ s, srcs.lookup cfg.source = some s → s.kuzuConn = none →
      cfg.initTool srcs = .error (.incompatibleSource "kuzu-cypher" ["kuzu"])) ∧
    (∀ s conn, srcs.lookup cfg.source = some s → s.kuzuConn = some conn →
      ∃ t, cfg.initTool srcs = .ok t ∧ t.connection = conn) ∧
    (srcs.lookup kcfg.source = none →
      kcfg.initTool srcs = .error (.unknownSource kcfg.source)) ∧
    (∀ s, srcs.lookup kcfg.source = some s → s.kuzuConn = none →
      kcfg.initTool srcs =
        .error (.incompatibleSource "kuzudb-cypher" ["kuzudb"])) ∧
    (∀ s conn, srcs.lookup kcfg.source = some s → s.kuzuConn = some conn →
      ∃ t, kcfg.initTool srcs = .ok t ∧ t.connection = conn) ∧
    (InitError.incompatibleSource "kuzu-cypher" ["kuzu"]).message =
      "invalid source for \"kuzu-cypher\" tool: source kind must be one of [\"kuzu\"]" := by
  refine ⟨fun h => ?_, fun s hs hc => ?_, fun s conn hs hc => ?_,
    fun h => ?_, fun s hs hc => ?_, fun s conn hs hc => ?_, by rfl⟩ <;>
    simp [Config.initTool, KuzuDBToolConfig.initTool, *]

/-- Witness for C8 at concrete inputs: a missing source name, a source
without the capability, and a source whose kind string is not even
"kuzu" but which exposes the capability and therefore binds. -/
theorem initTool_capability_check_witness :
    (({ name := "t", kind := "kuzu-cypher", source := "missing",
        description := "d", statement := "RETURN 1", authRequired := [],
        parameters := [], templateParameters := [] } : Config).initTool
        [("s", { kind := "other", kuzuConn := some 3 })] =
      .error (.unknownSource "missing")) ∧
    (({ name := "t", kind := "kuzu-cypher", source := "s",
        description := "d", statement := "RETURN 1", authRequired := [],
        parameters := [], templateParameters := [] } : Config).initTool
        [("s", { kind := "bigquery", kuzuConn := none })] =
      .error (.incompatibleSource "kuzu-cypher" ["kuzu"])) ∧
    (∃ t, ({ name := "t", kind := "kuzu-cypher", source := "s",
             description := "d", statement := "RETURN 1", authRequired := [],
             parameters := [], templateParameters := [] } : Config).initTool
        [("s", { kind := "weird-kind", kuzuConn := some 3 })] = .ok t ∧
      t.connection = 3) := by
  refine ⟨?_, ?_, ?_⟩
  · exact (initTool_capability_check
      { name := "t", kind := "kuzu-cypher", source := "missing",
        description := "d", statement := "RETURN 1", authRequired := [],
        parameters := [], templateParameters := [] }
      { name := "k", kind := "kuzudb-cypher", source := "s",
        description := "d", statement := "RETURN 1", authRequired := [],
        parameters := [] }
      [("s", { kind := "other", kuzuConn := some 3 })]).1 (by rfl)
  · exact (initTool_capability_check
      { name := "t", kind := "kuzu-cypher", source := "s",
        description := "d", statement := "RETURN 1", authRequired := [],
        parameters := [], templateParameters := [] }
      { name := "k", kind := "kuzudb-cypher", source := "s",
        description := "d", statement := "RETURN 1", authRequired := [],
        parameters := [] }
      [("s", { kind := "bigquery", kuzuConn := none })]).2.1
      { kind := "bigquery", kuzuConn := none } (by rfl) (by rfl)
  · exact (initTool_capability_check
      { name := "t", kind := "kuzu-cypher", source := "s",
        description := "d", statement := "RETURN 1", authRequired := [],
        parameters := [], templateParameters := [] }
      { name := "k", kind := "kuzudb-cypher", source := "s",
        description := "d", statement := "RETURN 1", authRequired := [],
        parameters := [] }
      [("s", { kind := "weird-kind", kuzuConn := some 3 })]).2.2.1
      { kind := "weird-kind", kuzuConn := some 3 } 3 (by rfl) (by rfl)

/-- On success, an auth-bound parameter's entry carries the claim value
of its first verified binding. -/
theorem parseParams_ok_auth_lookup (ps : List Parameter) (raw : RawInput)
    (claims : ClaimsMap) (p : Parameter) (hmem : p ∈ ps)
    (hauth : p.authServices ≠ [])
    (hnodup : (ps.map Parameter.name).Nodup) (vs : ParamValues)
    (hok : parseParams ps raw claims = .ok vs) :
    ∃ b m, firstVerifiedBinding p.authServices claims = some (b, m) ∧
      vs.lookup p.name = some (m b.field) := by
  induction ps generalizing vs with
  | nil => cases hmem
  | cons q rest ih =>
    rw [List.map_cons, List.nodup_cons] at hnodup
    unfold parseParams at hok
    rcases List.mem_cons.mp hmem with hqp | hprest
    · subst hqp
      unfold resolveParam at hok
      cases hps : p.authServices with
      | nil => exact absurd hps hauth
      | cons b0 brest =>
        rw [hps] at hok
        cases hfv : firstVerifiedBinding (b0 :: brest) claims with
        | none => rw [hfv] at hok; simp at hok
        | some pair =>
          obtain ⟨b, m⟩ := pair
          rw [hfv] at hok
          simp only at hok
          cases hrest : parseParams rest raw claims with
          | error e => rw [hrest] at hok; simp at hok
          | ok vs2 =>
            rw [hrest] at hok
            simp only [Except.ok.injEq] at hok
            subst hok
            refine ⟨b, m, rfl, ?_⟩
            simp [List.lookup]
    · cases hr : resolveParam q raw claims with
      | error e => rw [hr] at hok; simp at hok
      | ok ov =>
        rw [hr] at hok
        cases ov with
        | none =>
          simp only at hok
          exact ih hprest hnodup.2 vs hok
        | some v =>
          simp only at hok
          cases hrest : parseParams rest raw claims with
          | error e => rw [hrest] at hok; simp at hok
          | ok vs2 =>
            rw [hrest] at hok
            simp only [Except.ok.injEq] at hok
            subst hok
            obtain ⟨b, m, hfv, hl⟩ := ih hprest hnodup.2 vs2 hrest
            refine ⟨b, m, hfv, ?_⟩
            have hne : q.name ≠ p.name := by
              intro hEq
              exact hnodup.1 (hEq ▸ List.mem_map_of_mem Parameter.name hprest)
            have hbe : (p.name == q.name) = false :=
              beq_eq_false_iff_ne.mpr (fun hEq => hne hEq.symm)
            simp [List.lookup, hbe, hl]

/-- When none of an auth-bound parameter's services were verified,
validation cannot succeed, and that parameter's own resolution yields
AuthParameterUnresolved. -/
theorem parseParams_unresolved_fails (ps : List Parameter) (raw : RawInput)
    (claims : ClaimsMap) (p : Parameter) (hmem : p ∈ ps)
    (hauth : p.authServices ≠ [])
    (hnone : firstVerifiedBinding p.authServices claims = none) :
    resolveParam p raw claims = .error (.authParameterUnresolved p.name) ∧
    ∀ vs, parseParams ps raw claims ≠ .ok vs := by
  have hres : resolveParam p raw claims =
      .error (.authParameterUnresolved p.name) := by
    unfold resolveParam
    cases hps : p.authServices with
    | nil => exact absurd hps hauth
    | cons b0 brest =>
      rw [hps] at hnone
      simp [hnone]
  refine ⟨hres, ?_⟩
  induction ps with
  | nil => cases hmem
  | cons q rest ih =>
    intro vs hok
    unfold parseParams at hok
    rcases List.mem_cons.mp hmem with hqp | hprest
    · subst hqp
      rw [hres] at hok
      simp at hok
    · cases hr : resolveParam q raw claims with
      | error e => rw [hr] at hok; simp at hok
      | ok ov =>
        rw [hr] at hok
        cases ov with
        | none =>
          simp only at hok
          exact ih hprest vs hok
        | some v =>
          simp only at hok
          cases hrest : parseParams rest raw claims with
          | error e => rw [hrest] at hok; simp at hok
          | ok vs2 =>
            rw [hrest] at hok
            exact ih hprest vs2 hrest

/-- C4: for every parameter with auth bindings, a successful validation
assigns it the claim value of the first declared binding whose auth
service appears in the verified claims; the assigned value does not
depend on the caller's raw input at all; and when none of its bound
services were verified, its resolution is AuthParameterUnresolved and
validation cannot succeed. -/
theorem auth_param_first_verified_claim (t : Tool) (raw : RawInput)
    (claims : ClaimsMap) (p : Parameter) (hmem : p ∈ t.allParams)
    (hauth : p.authServices ≠ [])
    (hnodup : (t.allParams.map Parameter.name).Nodup) :
    (∀ vs, toolParseParams t raw claims = .ok vs →
      ∃ b m, firstVerifiedBinding p.authServices claims = some (b, m) ∧
        vs.lookup p.name = some (m b.field)) ∧
    (∀ raw2, resolveParam p raw claims = resolveParam p raw2 claims) ∧
    (firstVerifiedBinding p.authServices claims = none →
      resolveParam p raw claims = .error (.authParameterUnresolved p.name) ∧
      ∀ vs, toolParseParams t raw claims ≠ .ok vs) := by
  refine ⟨fun vs hok => ?_, fun raw2 => ?_, fun hnone => ?_⟩
  · exact parseParams_ok_auth_lookup t.allParams raw claims p hmem hauth
      hnodup vs hok
  · unfold resolveParam
    cases hps : p.authServices with
    | nil => exact absurd hps hauth
    | cons b0 brest => rfl
  · exact parseParams_unresolved_fails t.allParams raw claims p hmem hauth
      hnone

/-- Witness for C4 at a concrete tool: parameter "user" is bound to
services "a" (field "id") then "b" (field "id"); with only "b" verified
(claims yielding 42) and the caller also supplying a conflicting raw
value for "user", validation succeeds with exactly the claim value 42 of
the first verified binding. -/
theorem auth_param_first_verified_claim_witness :
    ∃ b m,
      firstVerifiedBinding
        [{ name := "a", field := "id" }, { name := "b", field := "id" }]
        [("b", fun _ => Value.int 42)] = some (b, m) ∧
      ([("user", Value.int 42)] : ParamValues).lookup "user" =
        some (m b.field) :=
  (auth_param_first_verified_claim
    { name := "t", kind := "kuzu-cypher", authRequired := [],
      parameters := [], templateParameters := [],
      allParams := [{ name := "user", type := ParamType.string,
                      required := true, itemType := ParamType.string,
                      authServices := [{ name := "a", field := "id" },
                                       { name := "b", field := "id" }] }],
      connection := 0, statement := "RETURN 1" }
    (fun _ => some (Value.str "attacker")) [("b", fun _ => Value.int 42)]
    { name := "user", type := ParamType.string, required := true,
      itemType := ParamType.string,
      authServices := [{ name := "a", field := "id" },
                       { name := "b", field := "id" }] }
    (by simp) (by simp) (by simp)).1 [("user", Value.int 42)] rfl

/-- C6: when template resolution, preparation and binding succeed and
the backend execution reports zero result rows, `Invoke` succeeds and
returns the empty collection, not an error. -/
theorem invoke_zero_rows_success (t : Tool) (resolver : Resolver)
    (conn : Backend) (params : ParamValues) (stmt : String)
    (prep : PreparedStmt) (m : String → Option Value) (cols : List String)
    (hres : resolver t.templateParameters t.statement (asMap params) =
      .ok stmt)
    (hprep : conn.prepare stmt = .ok prep)
    (hbind : getParams t.parameters (asMap params) = .ok m)
    (hexec : conn.execute prep m = .ok { cols := cols, rows := [] }) :
    (invoke t resolver conn params).1 = .ok [] := by
  simp [invoke, hres, hprep, hbind, hexec, iterRows]

/-- Witness for C6: the concrete parameterless tool against a backend
reporting zero rows succeeds with the empty collection. -/
theorem invoke_zero_rows_success_witness :
    (invoke exampleTool idResolver (constBackend ["a"] []) []).1 = .ok [] :=
  invoke_zero_rows_success exampleTool idResolver (constBackend ["a"] [])
    [] "MATCH (a) RETURN a" "MATCH (a) RETURN a" (fun _ => none) ["a"]
    rfl rfl rfl rfl

/-- A fold of Go map insertions leaves keys outside the inserted pairs
untouched. -/
theorem foldl_update_not_mem (ps : List (String × Value))
    (f : String → Option Value) (c : String)
    (hc : c ∉ ps.map Prod.fst) :
    ps.foldl
      (fun (m : String → Option Value) (p : String × Value) =>
        Function.update m p.1 (some p.2)) f c = f c := by
  induction ps generalizing f with
  | nil => rfl
  | cons p rest ih =>
    rw [List.map_cons, List.mem_cons] at hc
    have h1 : c ≠ p.1 := fun h => hc (Or.inl h)
    have h2 : c ∉ rest.map Prod.fst := fun h => hc (Or.inr h)
    simp only [List.foldl_cons]
    rw [ih _ h2, Function.update_noteq h1]

/-- A fold of Go map insertions assigns each inserted key its value,
when the inserted keys are distinct. -/
theorem foldl_update_mem (ps : List (String × Value))
    (f : String → Option Value) (c : String) (v : Value)
    (hmem : (c, v) ∈ ps) (hnodup : (ps.map Prod.fst).Nodup) :
    ps.foldl
      (fun (m : String → Option Value) (p : String × Value) =>
        Function.update m p.1 (some p.2)) f c = some v := by
  induction ps generalizing f with
  | nil => cases hmem
  | cons p rest ih =>
    rw [List.map_cons, List.nodup_cons] at hnodup
    simp only [List.foldl_cons]
    rcases List.mem_cons.mp hmem with hEq | hmem2
    · subst hEq
      rw [foldl_update_not_mem rest _ c hnodup.1, Function.update_same]
    · exact ih _ hmem2 hnodup.2

/-- C7 amended: `Invoke` projects each backend row into an unordered
name → value mapping (a Go map): for distinct column names, the map
assigns every column name the row value at that column's position and
is undefined outside the column names; no ordering information (neither
backend column order nor parameter order) is carried by the mapping. -/
theorem row_projection_assigns_by_column_name (cols : List String)
    (slice : List Value) (hnodup : cols.Nodup)
    (hlen : cols.length ≤ slice.length) :
    (∀ c v, (c, v) ∈ cols.zip slice → buildRowMap cols slice c = some v) ∧
    (∀ c, c ∉ cols → buildRowMap cols slice c = none) := by
  have hkeys : (cols.zip slice).map Prod.fst = cols :=
    List.map_fst_zip cols slice hlen
  constructor
  · intro c v hmem
    exact foldl_update_mem _ _ c v hmem (by rw [hkeys]; exact hnodup)
  · intro c hc
    exact foldl_update_not_mem _ _ c (by rw [hkeys]; exact hc)

/-- Witness for the amended C7: for columns ["a", "b"] and row values
[1, 2], the map yields 1 at "a", 2 at "b" and nothing at "z". -/
theorem row_projection_assigns_by_column_name_witness :
    buildRowMap ["a", "b"] [Value.int 1, Value.int 2] "a" =
      some (Value.int 1) ∧
    buildRowMap ["a", "b"] [Value.int 1, Value.int 2] "b" =
      some (Value.int 2) ∧
    buildRowMap ["a", "b"] [Value.int 1, Value.int 2] "z" = none := by
  have h := row_projection_assigns_by_column_name ["a", "b"]
    [Value.int 1, Value.int 2] (by decide) (by decide)
  refine ⟨h.1 "a" (Value.int 1) ?_, h.1 "b" (Value.int 2) ?_, h.2 "z" ?_⟩
  · exact List.mem_cons_self _ _
  · exact List.mem_cons_of_mem _ (List.mem_cons_self _ _)
  · decide

/-- C7 as stated is refuted: `Invoke` puts each row into a Go map, which
carries no order.  Two backends whose column orders differ (["a", "b"]
versus ["b", "a"], with each row permuted accordingly) produce exactly
equal invocation outputs, so the output cannot preserve the backend's
column order. -/
theorem invoke_output_forgets_column_order :
    invoke exampleTool idResolver
        (constBackend ["a", "b"] [[Value.int 1, Value.int 2]]) [] =
      invoke exampleTool idResolver
        (constBackend ["b", "a"] [[Value.int 2, Value.int 1]]) [] ∧
    (["a", "b"] : List String) ≠ ["b", "a"] := by
  constructor
  · have hrow : buildRowMap ["a", "b"] [Value.int 1, Value.int 2] =
        buildRowMap ["b", "a"] [Value.int 2, Value.int 1] := by
      funext s
      by_cases h1 : s = "a"
      · subst h1; rfl
      · by_cases h2 : s = "b"
        · subst h2; rfl
        · simp [buildRowMap, Function.update, h1, h2]
    simp [invoke, idResolver, constBackend, exampleTool, getParams,
      iterRows, hrow]
  · decide

/-- C3 as stated is refuted: in a concrete successful invocation the
recorded pipeline trace is [resolveTemplate, prepare, getParams,
execute] — the bound Source's capability is asked for the prepared form
of the statement strictly before the statement's parameters are bound
by `getParams`, so binding does not complete before preparation. -/
theorem invoke_prepares_before_binding :
    (invoke exampleTool idResolver (constBackend ["a"] []) []).2 =
      [Ev.resolveTemplate, Ev.prepare, Ev.getParams, Ev.execute] ∧
    ¬ (evIndex (invoke exampleTool idResolver (constBackend ["a"] []) []).2
          Ev.getParams <
        evIndex (invoke exampleTool idResolver (constBackend ["a"] []) []).2
          Ev.prepare) := by
  refine ⟨rfl, ?_⟩
  decide

/-- The events of the row-iteration loop are consecutive row indices
starting at `i`. -/
theorem iterRows_trace (cols : List String)
    (rows : List (Except String (List Value))) (i : Nat) :
    ∃ m, (iterRows cols rows i).2 =
      (List.range m).map (fun j => Ev.row (i + j)) := by
  induction rows generalizing i with
  | nil => exact ⟨0, rfl⟩
  | cons r rest ih =>
    cases r with
    | error e => exact ⟨1, by simp [iterRows, List.range_succ]⟩
    | ok slice =>
      obtain ⟨m, hm⟩ := ih (i + 1)
      refine ⟨m + 1, ?_⟩
      simp only [iterRows]
      rw [hm, List.range_succ_eq_map, List.map_cons, List.map_map]
      refine List.cons_eq_cons.mpr ⟨by simp, ?_⟩
      apply List.map_congr_left
      intro a _
      simp only [Function.comp_apply]
      congr 1
      omega

/-- C3 amended: within one invocation the pipeline stages run strictly
sequentially in the order template resolution, then statement
preparation, then parameter binding, then execution, then row
iteration; each stage runs only after every earlier stage succeeded,
and a failing stage truncates the trace at its own event. -/
theorem invoke_stages_strictly_sequential (t : Tool) (resolver : Resolver)
    (conn : Backend) (params : ParamValues) :
    (∃ e, invoke t resolver conn params =
      (.error e, [Ev.resolveTemplate])) ∨
    (∃ e, invoke t resolver conn params =
      (.error e, [Ev.resolveTemplate, Ev.prepare])) ∨
    (∃ e, invoke t resolver conn params =
      (.error e, [Ev.resolveTemplate, Ev.prepare, Ev.getParams])) ∨
    (∃ e, invoke t resolver conn params =
      (.error e, [Ev.resolveTemplate, Ev.prepare, Ev.getParams,
        Ev.execute])) ∨
    (∃ res m, invoke t resolver conn params =
      (res, [Ev.resolveTemplate, Ev.prepare, Ev.getParams, Ev.execute] ++
        (List.range m).map Ev.row)) := by
  cases hres : resolver t.templateParameters t.statement (asMap params) with
  | error e =>
    left
    exact ⟨"unable to extract template params " ++ e, by simp [invoke, hres]⟩
  | ok stmt =>
    cases hprep : conn.prepare stmt with
    | error e =>
      right; left
      exact ⟨"unable to generate prepared statement " ++ e,
        by simp [invoke, hres, hprep]⟩
    | ok prep =>
      cases hbind : getParams t.parameters (asMap params) with
      | error e =>
        right; right; left
        exact ⟨"unable to extract standard params " ++ e,
          by simp [invoke, hres, hprep, hbind]⟩
      | ok m =>
        cases hexec : conn.execute prep m with
        | error e =>
          right; right; right; left
          exact ⟨"unable to execute query: " ++ e,
            by simp [invoke, hres, hprep, hbind, hexec]⟩
        | ok result =>
          right; right; right; right
          obtain ⟨mr, hmr⟩ := iterRows_trace result.cols result.rows 0
          refine ⟨(iterRows result.cols result.rows 0).1, mr, ?_⟩
          simp only [invoke, hres, hprep, hbind, hexec]
          rw [hmr]
          simp

/-- Every goroutine of the initial state is at `start`. -/
theorem replicate_start_elem {n i : Nat} {pc : PC}
    (h : (List.replicate n PC.start)[i]? = some pc) : pc = PC.start := by
  rw [List.getElem?_replicate] at h
  split at h
  · injection h with h
    exact h.symm
  · cases h

/-- The invariant holds initially. -/
theorem cacheInv_init (now n : Nat) : CacheInv now n (initCacheState n) := by
  constructor
  · simp [initCacheState]
  · exact Nat.zero_le 1
  · intro e h
    cases h
  · intro i id h
    exact PC.noConfusion (replicate_start_elem h)
  · intro i h
    exact PC.noConfusion (replicate_start_elem h)
  · intro i j pci pcj hi hj hwi hwj
    rw [replicate_start_elem hi] at hwi
    simp [isWriterPC] at hwi
  · intro hw i pc h hwpc
    rw [replicate_start_elem h] at hwpc
    simp [isWriterPC] at hwpc
  · intro i id h
    exact PC.noConfusion (replicate_start_elem h)
  · intro h
    simp [initCacheState] at h

/-- Indexing into a list after `set`: either the written index with the
written element, or an untouched index. -/
theorem set_elem_cases {l : List PC} {i j : Nat} {x pc : PC}
    (hi : i < l.length) (h : (l.set i x)[j]? = some pc) :
    (j = i ∧ pc = x) ∨ (j ≠ i ∧ l[j]? = some pc) := by
  by_cases hji : j = i
  · subst hji
    rw [List.getElem?_set_self hi] at h
    injection h with h
    exact Or.inl ⟨rfl, h.symm⟩
  · right
    refine ⟨hji, ?_⟩
    rw [List.getElem?_set_ne (fun hEq => hji hEq.symm)] at h
    exact h

/-- An index holding an element is within bounds. -/
theorem elem_lt_length {l : List PC} {i : Nat} {pc : PC}
    (h : l[i]? = some pc) : i < l.length := by
  rcases List.getElem?_eq_some.mp h with ⟨hlt, _⟩
  exact hlt

/-- The invariant is preserved by every step of the concurrent cache
model. -/
theorem cacheInv_step (now n : Nat) (s s2 : CacheState)
    (I : CacheInv now n s) (hstep : CacheStep now s s2) :
    CacheInv now n s2 := by
  have hTTL : clientTTL = 55 := rfl
  cases hstep with
  | rlock i h hw =>
    have hi := elem_lt_length h
    refine ⟨?_, I.hle, I.hcache, ?_, ?_, ?_, ?_, ?_, ?_⟩
    · simp [I.hlen]
    · intro j id hj
      rcases set_elem_cases hi hj with ⟨_, hpc⟩ | ⟨_, hj2⟩
      · exact PC.noConfusion hpc
      · exact I.hstoring j id hj2
    · intro j hj
      rcases set_elem_cases hi hj with ⟨_, hpc⟩ | ⟨_, hj2⟩
      · exact PC.noConfusion hpc
      · exact I.hwriting j hj2
    · intro a b pca pcb ha hb hwa hwb
      rcases set_elem_cases hi ha with ⟨_, hpc⟩ | ⟨_, ha2⟩
      · subst hpc; simp [isWriterPC] at hwa
      · rcases set_elem_cases hi hb with ⟨_, hpc⟩ | ⟨_, hb2⟩
        · subst hpc; simp [isWriterPC] at hwb
        · exact I.hmutex a b pca pcb ha2 hb2 hwa hwb
    · intro hw2 j pc hj hwpc
      rcases set_elem_cases hi hj with ⟨_, hpc⟩ | ⟨_, hj2⟩
      · subst hpc; simp [isWriterPC] at hwpc
      · exact I.hwfalse hw2 j pc hj2 hwpc
    · intro j id hj
      rcases set_elem_cases hi hj with ⟨_, hpc⟩ | ⟨_, hj2⟩
      · exact PC.noConfusion hpc
      · exact I.hdone j id hj2
    · intro h1
      rcases I.hsrc h1 with hc | ⟨j, id, hj⟩
      · exact Or.inl hc
      · have hne : j ≠ i := by
          intro hEq
          subst hEq
          rw [h] at hj
          injection hj with hj
          exact PC.noConfusion hj
        exact Or.inr ⟨j, id, by
          rw [List.getElem?_set_ne (fun hEq => hne hEq.symm)]
          exact hj⟩
  | readHit i e h hc ht =>
    have hi := elem_lt_length h
    refine ⟨?_, I.hle, I.hcache, ?_, ?_, ?_, ?_, ?_, ?_⟩
    · simp [I.hlen]
    · intro j id hj
      rcases set_elem_cases hi hj with ⟨_, hpc⟩ | ⟨_, hj2⟩
      · exact PC.noConfusion hpc
      · exact I.hstoring j id hj2
    · intro j hj
      rcases set_elem_cases hi hj with ⟨_, hpc⟩ | ⟨_, hj2⟩
      · exact PC.noConfusion hpc
      · exact I.hwriting j hj2
    · intro a b pca pcb ha hb hwa hwb
      rcases set_elem_cases hi ha with ⟨_, hpc⟩ | ⟨_, ha2⟩
      · subst hpc; simp [isWriterPC] at hwa
      · rcases set_elem_cases hi hb with ⟨_, hpc⟩ | ⟨_, hb2⟩
        · subst hpc; simp [isWriterPC] at hwb
        · exact I.hmutex a b pca pcb ha2 hb2 hwa hwb
    · intro hw2 j pc hj hwpc
      rcases set_elem_cases hi hj with ⟨_, hpc⟩ | ⟨_, hj2⟩
      · subst hpc; simp [isWriterPC] at hwpc
      · exact I.hwfalse hw2 j pc hj2 hwpc
    · intro j id hj
      rcases set_elem_cases hi hj with ⟨_, hpc⟩ | ⟨_, hj2⟩
      · injection hpc with hpc
        exact ⟨e, hc, hpc.symm⟩
      · exact I.hdone j id hj2
    · intro h1
      rcases I.hsrc h1 with hcs | ⟨j, id, hj⟩
      · exact Or.inl hcs
      · have hne : j ≠ i := by
          intro hEq
          subst hEq
          rw [h] at hj
          injection hj with hj
          exact PC.noConfusion hj
        exact Or.inr ⟨j, id, by
          rw [List.getElem?_set_ne (fun hEq => hne hEq.symm)]
          exact hj⟩
  | readMiss i h hm =>
    have hi := elem_lt_length h
    refine ⟨?_, I.hle, I.hcache, ?_, ?_, ?_, ?_, ?_, ?_⟩
    · simp [I.hlen]
    · intro j id hj
      rcases set_elem_cases hi hj with ⟨_, hpc⟩ | ⟨_, hj2⟩
      · exact PC.noConfusion hpc
      · exact I.hstoring j id hj2
    · intro j hj
      rcases set_elem_cases hi hj with ⟨_, hpc⟩ | ⟨_, hj2⟩
      · exact PC.noConfusion hpc
      · exact I.hwriting j hj2
    · intro a b pca pcb ha hb hwa hwb
      rcases set_elem_cases hi ha with ⟨_, hpc⟩ | ⟨_, ha2⟩
      · subst hpc; simp [isWriterPC] at hwa
      · rcases set_elem_cases hi hb with ⟨_, hpc⟩ | ⟨_, hb2⟩
        · subst hpc; simp [isWriterPC] at hwb
        · exact I.hmutex a b pca pcb ha2 hb2 hwa hwb
    · intro hw2 j pc hj hwpc
      rcases set_elem_cases hi hj with ⟨_, hpc⟩ | ⟨_, hj2⟩
      · subst hpc; simp [isWriterPC] at hwpc
      · exact I.hwfalse hw2 j pc hj2 hwpc
    · intro j id hj
      rcases set_elem_cases hi hj with ⟨_, hpc⟩ | ⟨_, hj2⟩
      · exact PC.noConfusion hpc
      · exact I.hdone j id hj2
    · intro h1
      rcases I.hsrc h1 with hcs | ⟨j, id, hj⟩
      · exact Or.inl hcs
      · have hne : j ≠ i := by
          intro hEq
          subst hEq
          rw [h] at hj
          injection hj with hj
          exact PC.noConfusion hj
        exact Or.inr ⟨j, id, by
          rw [List.getElem?_set_ne (fun hEq => hne hEq.symm)]
          exact hj⟩
  | wlock i h hw hr =>
    have hi := elem_lt_length h
    refine ⟨?_, I.hle, I.hcache, ?_, ?_, ?_, ?_, ?_, ?_⟩
    · simp [I.hlen]
    · intro j id hj
      rcases set_elem_cases hi hj with ⟨_, hpc⟩ | ⟨_, hj2⟩
      · exact PC.noConfusion hpc
      · exact absurd (I.hstoring j id hj2).2.2 (by simp [hw])
    · intro j hj
      rfl
    · intro a b pca pcb ha hb hwa hwb
      rcases set_elem_cases hi ha with ⟨hai, _⟩ | ⟨hnea, ha2⟩
      · rcases set_elem_cases hi hb with ⟨hbi, _⟩ | ⟨hneb, hb2⟩
        · rw [hai, hbi]
        · exact absurd hwb (I.hwfalse hw b pcb hb2)
      · exact absurd hwa (I.hwfalse hw a pca ha2)
    · intro hw2
      exact absurd hw2 (by simp)
    · intro j id hj
      rcases set_elem_cases hi hj with ⟨_, hpc⟩ | ⟨_, hj2⟩
      · exact PC.noConfusion hpc
      · exact I.hdone j id hj2
    · intro h1
      rcases I.hsrc h1 with hcs | ⟨j, id, hj⟩
      · exact Or.inl hcs
      · exact absurd (I.hstoring j id hj).2.2 (by simp [hw])
  | writeHit i e h hc ht =>
    have hi := elem_lt_length h
    refine ⟨?_, I.hle, I.hcache, ?_, ?_, ?_, ?_, ?_, ?_⟩
    · simp [I.hlen]
    · intro j id hj
      rcases set_elem_cases hi hj with ⟨_, hpc⟩ | ⟨hne, hj2⟩
      · exact PC.noConfusion hpc
      · exact absurd (I.hmutex j i (PC.storing id) PC.writing hj2 h
          (by trivial) (by trivial)) hne
    · intro j hj
      rcases set_elem_cases hi hj with ⟨_, hpc⟩ | ⟨hne, hj2⟩
      · exact PC.noConfusion hpc
      · exact absurd (I.hmutex j i PC.writing PC.writing hj2 h
          (by trivial) (by trivial)) hne
    · intro a b pca pcb ha hb hwa hwb
      rcases set_elem_cases hi ha with ⟨_, hpc⟩ | ⟨hnea, ha2⟩
      · subst hpc; simp [isWriterPC] at hwa
      · rcases set_elem_cases hi hb with ⟨_, hpc⟩ | ⟨hneb, hb2⟩
        · subst hpc; simp [isWriterPC] at hwb
        · exact I.hmutex a b pca pcb ha2 hb2 hwa hwb
    · intro hw2 j pc hj hwpc
      rcases set_elem_cases hi hj with ⟨_, hpc⟩ | ⟨hne, hj2⟩
      · subst hpc; simp [isWriterPC] at hwpc
      · exact absurd (I.hmutex j i pc PC.writing hj2 h hwpc (by trivial)) hne
    · intro j id hj
      rcases set_elem_cases hi hj with ⟨_, hpc⟩ | ⟨_, hj2⟩
      · injection hpc with hpc
        exact ⟨e, hc, hpc.symm⟩
      · exact I.hdone j id hj2
    · intro h1
      rcases I.hsrc h1 with hcs | ⟨j, id, hj⟩
      · exact Or.inl hcs
      · exact absurd (I.hmutex j i (PC.storing id) PC.writing hj h
          (by trivial) (by trivial)) (by
            intro hEq
            subst hEq
            rw [h] at hj
            injection hj with hj
            exact PC.noConfusion hj)
  | writeMiss i h hm =>
    have hi := elem_lt_length h
    have hcn : s.cache = none := by
      rcases hm with hnone | ⟨e, he, hexp⟩
      · exact hnone
      · have := (I.hcache e he).1
        omega
    have hc0 : s.constructed = 0 := by
      rcases Nat.eq_zero_or_pos s.constructed with h0 | hpos
      · exact h0
      · have h1 : s.constructed = 1 := le_antisymm I.hle hpos
        rcases I.hsrc h1 with hcs | ⟨j, id, hj⟩
        · rw [hcn] at hcs
          cases hcs
        · have hji := I.hmutex j i (PC.storing id) PC.writing hj h
            (by trivial) (by trivial)
          subst hji
          rw [h] at hj
          injection hj with hj
          exact PC.noConfusion hj
    refine ⟨?_, ?_, ?_, ?_, ?_, ?_, ?_, ?_, ?_⟩
    · simp [I.hlen]
    · simp [hc0]
    · intro e he
      rw [hcn] at he
      cases he
    · intro j id hj
      rcases set_elem_cases hi hj with ⟨_, _⟩ | ⟨hne, hj2⟩
      · exact ⟨hcn, by simp [hc0], I.hwriting i h⟩
      · exact absurd (I.hmutex j i (PC.storing id) PC.writing hj2 h
          (by trivial) (by trivial)) hne
    · intro j hj
      exact I.hwriting i h
    · intro a b pca pcb ha hb hwa hwb
      rcases set_elem_cases hi ha with ⟨hai, _⟩ | ⟨hnea, ha2⟩
      · rcases set_elem_cases hi hb with ⟨hbi, _⟩ | ⟨hneb, hb2⟩
        · rw [hai, hbi]
        · exact absurd (I.hmutex b i pcb PC.writing hb2 h hwb
            (by trivial)) hneb
      · exact absurd (I.hmutex a i pca PC.writing ha2 h hwa
          (by trivial)) hnea
    · intro hw2
      exact absurd hw2 (by simp [I.hwriting i h])
    · intro j id hj
      rcases set_elem_cases hi hj with ⟨_, hpc⟩ | ⟨_, hj2⟩
      · exact PC.noConfusion hpc
      · exact I.hdone j id hj2
    · intro h1
      exact Or.inr ⟨i, s.nextId, by
        rw [List.getElem?_set_self hi]⟩
  | store i id h =>
    have hi := elem_lt_length h
    obtain ⟨hcn, hc1, hwt⟩ := I.hstoring i id h
    refine ⟨?_, I.hle, ?_, ?_, ?_, ?_, ?_, ?_, ?_⟩
    · simp [I.hlen]
    · intro e he
      injection he with he
      subst he
      exact ⟨rfl, hc1⟩
    · intro j id2 hj
      rcases set_elem_cases hi hj with ⟨_, hpc⟩ | ⟨hne, hj2⟩
      · exact PC.noConfusion hpc
      · exact absurd (I.hmutex j i (PC.storing id2) (PC.storing id) hj2 h
          (by trivial) (by trivial)) hne
    · intro j hj
      rcases set_elem_cases hi hj with ⟨_, hpc⟩ | ⟨hne, hj2⟩
      · exact PC.noConfusion hpc
      · exact absurd (I.hmutex j i PC.writing (PC.storing id) hj2 h
          (by trivial) (by trivial)) hne
    · intro a b pca pcb ha hb hwa hwb
      rcases set_elem_cases hi ha with ⟨_, hpc⟩ | ⟨hnea, ha2⟩
      · subst hpc; simp [isWriterPC] at hwa
      · rcases set_elem_cases hi hb with ⟨_, hpc⟩ | ⟨hneb, hb2⟩
        · subst hpc; simp [isWriterPC] at hwb
        · exact I.hmutex a b pca pcb ha2 hb2 hwa hwb
    · intro hw2 j pc hj hwpc
      rcases set_elem_cases hi hj with ⟨_, hpc⟩ | ⟨hne, hj2⟩
      · subst hpc; simp [isWriterPC] at hwpc
      · exact absurd (I.hmutex j i pc (PC.storing id) hj2 h hwpc
          (by trivial)) hne
    · intro j id2 hj
      rcases set_elem_cases hi hj with ⟨_, hpc⟩ | ⟨_, hj2⟩
      · injection hpc with hpc
        exact ⟨{ clientId := id, expiry := now + clientTTL }, rfl, hpc.symm⟩
      · obtain ⟨e, he, _⟩ := I.hdone j id2 hj2
        rw [hcn] at he
        cases he
    · intro h1
      exact Or.inl rfl
  | sweep e hw hr hc ht =>
    have := (I.hcache e hc).1
    exact absurd ht (by omega)

/-- The invariant holds in every reachable state. -/
theorem cacheInv_reachable (now n : Nat) (s : CacheState)
    (h : CacheReachable now (initCacheState n) s) : CacheInv now n s := by
  induction h with
  | refl => exact cacheInv_init now n
  | tail hab hbc ih => exact cacheInv_step now n _ _ ih hbc

/-- C1: starting from no cache entry, with `n` goroutines concurrently
entering `GetOrCreateClient` for the same credential and the credential
inside its validity window (frozen clock), every reachable state of the
model has seen at most one client construction; and in any reachable
state where every goroutine has returned, exactly one client was
constructed and all goroutines returned that same shared client. -/
theorem getOrCreateClient_single_construction (now n : Nat) (s : CacheState)
    (hreach : CacheReachable now (initCacheState n) s) :
    s.constructed ≤ 1 ∧
    (0 < n →
      (∀ (i : Nat) (pc : PC), s.threads[i]? = some pc →
        ∃ id, pc = PC.done id) →
      s.constructed = 1 ∧
      ∃ id, ∀ (i : Nat) (pc : PC), s.threads[i]? = some pc →
        pc = PC.done id) := by
  have I := cacheInv_reachable now n s hreach
  refine ⟨I.hle, fun hn hdoneAll => ?_⟩
  have hlen0 : 0 < s.threads.length := I.hlen ▸ hn
  have hpc0 : s.threads[0]? = some (s.threads.get ⟨0, hlen0⟩) :=
    List.getElem?_eq_some.mpr ⟨hlen0, rfl⟩
  obtain ⟨id0, hid0⟩ := hdoneAll 0 _ hpc0
  rw [hid0] at hpc0
  obtain ⟨e, he, _⟩ := I.hdone 0 id0 hpc0
  refine ⟨(I.hcache e he).2, e.clientId, ?_⟩
  intro i pc hpc
  obtain ⟨id, hid⟩ := hdoneAll i pc hpc
  subst hid
  obtain ⟨e2, he2, hcid2⟩ := I.hdone i id hpc
  rw [he] at he2
  injection he2 with he2
  rw [← hcid2, he2]

/-- Witness for C1: a complete interleaving of two goroutines at clock 0
in which goroutine 0 misses the fast path, constructs and stores client
0, and goroutine 1 misses the fast path but hits the double-check under
the write lock; the theorem instantiates to: at most one construction,
and — both goroutines being done — exactly one construction with both
sharing client 0. -/
theorem getOrCreateClient_single_construction_witness :
    ({ cache := some { clientId := 0, expiry := 0 + clientTTL },
       readers := 0, writer := false, nextId := 1, constructed := 1,
       threads := [PC.done 0, PC.done 0] } : CacheState).constructed ≤ 1 ∧
    ((1 : Nat) = 1 ∧
      ∃ id, ∀ (i : Nat) (pc : PC),
        ([PC.done 0, PC.done 0] : List PC)[i]? = some pc →
          pc = PC.done id) := by
  have hreach : CacheReachable 0 (initCacheState 2)
      { cache := some { clientId := 0, expiry := 0 + clientTTL },
        readers := 0, writer := false, nextId := 1, constructed := 1,
        threads := [PC.done 0, PC.done 0] } :=
    Relation.ReflTransGen.head
      (CacheStep.rlock _ 0 (by decide) (by decide))
      (Relation.ReflTransGen.head
        (CacheStep.readMiss _ 0 (by decide) (Or.inl (by decide)))
        (Relation.ReflTransGen.head
          (CacheStep.rlock _ 1 (by decide) (by decide))
          (Relation.ReflTransGen.head
            (CacheStep.readMiss _ 1 (by decide) (Or.inl (by decide)))
            (Relation.ReflTransGen.head
              (CacheStep.wlock _ 0 (by decide) (by decide) (by decide))
              (Relation.ReflTransGen.head
                (CacheStep.writeMiss _ 0 (by decide) (Or.inl (by decide)))
                (Relation.ReflTransGen.head
                  (CacheStep.store _ 0 0 (by decide))
                  (Relation.ReflTransGen.head
                    (CacheStep.wlock _ 1 (by decide) (by decide) (by decide))
                    (Relation.ReflTransGen.head
                      (CacheStep.writeHit _ 1
                        { clientId := 0, expiry := 0 + clientTTL }
                        (by decide) (by decide) (by decide))
                      Relation.ReflTransGen.refl))))))))
  have h := getOrCreateClient_single_construction 0 2 _ hreach
  refine ⟨h.1, h.2 (by decide) ?_⟩
  intro i pc hp
  match i with
  | 0 =>
    refine ⟨0, ?_⟩
    simp only [List.getElem?_cons_zero] at hp
    injection hp with hp
    exact hp.symm
  | 1 =>
    refine ⟨0, ?_⟩
    simp only [List.getElem?_cons_succ, List.getElem?_cons_zero] at hp
    injection hp with hp
    exact hp.symm
  | (m + 2) =>
    simp only [List.getElem?_cons_succ, List.getElem?_nil] at hp
    cases hp

end GenaiToolbox
